import Mathlib

/-!
Verification of the Cost Computation and Allocation Engine of the
EpsPoolCalculator component (src/components/EpsPoolCalculator.tsx).

The engine is a pure pipeline over JavaScript numbers.  We embed it
shallowly over `ℚ`: every finite JavaScript number that the pipeline can
produce from rational inputs is rational, and the only non-finite value
the engine can produce is `Infinity`, from the warranty division
`n / (1 - wRate)` when `wRate ≥ 1`.  The type `JsVal` adds the special
values `inf`, `neginf` and `nan` so that this branch is modelled
faithfully.
-/

namespace PoolCalc

/-- Model of a JavaScript number as produced by the engine: a rational,
or one of the special values `Infinity`, `-Infinity`, `NaN`. -/
inductive JsVal where
  | num (q : ℚ)
  | inf
  | neginf
  | nan
deriving DecidableEq

/-- JavaScript addition restricted to the values of `JsVal`. -/
def JsVal.add : JsVal → JsVal → JsVal
  | .nan, _ => .nan
  | _, .nan => .nan
  | .inf, .neginf => .nan
  | .neginf, .inf => .nan
  | .inf, _ => .inf
  | _, .inf => .inf
  | .neginf, _ => .neginf
  | _, .neginf => .neginf
  | .num a, .num b => .num (a + b)

/-- JavaScript multiplication of a `JsVal` by a rational constant. -/
def JsVal.mulQ : JsVal → ℚ → JsVal
  | .num a, q => .num (a * q)
  | .inf, q => if 0 < q then .inf else if q < 0 then .neginf else .nan
  | .neginf, q => if 0 < q then .neginf else if q < 0 then .inf else .nan
  | .nan, _ => .nan

/-- JavaScript division of a `JsVal` by a rational constant. -/
def JsVal.divQ : JsVal → ℚ → JsVal
  | .num a, q =>
      if q = 0 then (if 0 < a then .inf else if a < 0 then .neginf else .nan)
      else .num (a / q)
  | .inf, q => if 0 ≤ q then .inf else .neginf
  | .neginf, q => if 0 ≤ q then .neginf else .inf
  | .nan, _ => .nan

/-- JavaScript division of a rational constant by a `JsVal`. -/
def qDivJs (a : ℚ) : JsVal → JsVal
  | .num x =>
      if x = 0 then (if 0 < a then .inf else if a < 0 then .neginf else .nan)
      else .num (a / x)
  | .inf => .num 0
  | .neginf => .num 0
  | .nan => .nan

/-- The JavaScript comparison `v > 0` (false on `NaN`). -/
def JsVal.gtZero : JsVal → Bool
  | .num q => decide (0 < q)
  | .inf => true
  | .neginf => false
  | .nan => false

/-- Sum of a list of `JsVal`s, as `reduce((s, n) => s + n, 0)`. -/
def jsSum (l : List JsVal) : JsVal := l.foldl JsVal.add (.num 0)

/-- The numeric order on `JsVal` (`NaN` below nothing and above nothing). -/
def JsVal.le : JsVal → JsVal → Prop
  | .nan, _ => False
  | _, .nan => False
  | .neginf, _ => True
  | _, .neginf => False
  | _, .inf => True
  | .inf, _ => False
  | .num a, .num b => a ≤ b

/-- The helper `clampN` of the source, `Math.max(0, n)` on finite
numbers: negative numbers are clamped to 0.  Over `ℚ` every value is
finite, so the `Number.isFinite` test always passes. -/
def clampN (n : ℚ) : ℚ := if n < 0 then 0 else n

/-- Left fold `reduce((s, x) => s + f x, 0)` as used throughout the
source for summations. -/
def sumBy {α : Type} (f : α → ℚ) (l : List α) : ℚ :=
  l.foldl (fun s x => s + f x) 0

/-- The two vessel types of the calculator. -/
inductive VesselType where
  | coldPlunge
  | hotTub
deriving DecidableEq, BEq

@[simp] lemma VesselType.beq_cp_cp :
    (VesselType.coldPlunge == VesselType.coldPlunge) = true := rfl

@[simp] lemma VesselType.beq_cp_ht :
    (VesselType.coldPlunge == VesselType.hotTub) = false := rfl

@[simp] lemma VesselType.beq_ht_cp :
    (VesselType.hotTub == VesselType.coldPlunge) = false := rfl

@[simp] lemma VesselType.beq_ht_ht :
    (VesselType.hotTub == VesselType.hotTub) = true := rfl

@[simp] lemma VesselType.cp_ne_ht : VesselType.coldPlunge ≠ VesselType.hotTub := nofun

@[simp] lemma VesselType.ht_ne_cp : VesselType.hotTub ≠ VesselType.coldPlunge := nofun

/-- One priced line item of an equipment package. -/
structure LineItem where
  label : String
  cost : ℚ
deriving DecidableEq

/-- A named bundle of priced line items applicable to some vessel types. -/
structure EquipmentPackage where
  key : String
  label : String
  appliesTo : List VesselType
  items : List LineItem
deriving DecidableEq

/-- A vessel as edited in the UI (the fields the engine reads). -/
structure Vessel where
  type : VesselType
  name : String
  length_ft : ℚ
  width_ft : ℚ
  waterDepth_ft : ℚ
  benchSf : ℚ
  extraSf : ℚ
  handrails : ℚ
  refrigerationLine : Bool
  jets : ℚ
  equipmentPackageKey : String
deriving DecidableEq

/-- The full rate configuration and scope flags of the calculator
(the React state variables read by `vesselCalcs` and `project`). -/
structure Config where
  scopeMaterials : Bool
  scopeLabor : Bool
  scopeEquipment : Bool
  scopeFreight : Bool
  scopeDesignEng : Bool
  scopeDesignCont : Bool
  scopeWarranty : Bool
  epsBundlePerSf : ℚ
  tileMaterialsPerSf : ℚ
  ffeMaterialsPerVessel : ℚ
  epsWpLaborPerSf : ℚ
  tileLaborPerSf : ℚ
  ffeLaborPerVessel : ℚ
  equipPlumbPerVessel : ℚ
  handrailInstallPerEa : ℚ
  refrigLinePerCP : ℚ
  startupLump : ℚ
  repOnsiteFee : ℚ
  includeRigging : Bool
  riggingPerVessel : ℚ
  regionMult : ℚ
  miles : ℚ
  dollarsPerMile : ℚ
  handlingPerVessel : ℚ
  designBase : ℚ
  designMult : ℚ
  designContPct : ℚ
  warrantyPctOfClient : ℚ
  ohpPct : ℚ
  wastePct : ℚ
  useProjectChemicalStorage : Bool
  projectChemicalStorageCost : ℚ
  packages : List EquipmentPackage
deriving DecidableEq

/-! Per-vessel calculations (`vesselCalcs`, part_001 lines 215-269). -/

/-- Floor area `L * W` of a vessel (dimensions clamped). -/
def floorSf (v : Vessel) : ℚ := clampN v.length_ft * clampN v.width_ft

/-- Wall area `2 * (L + W) * D` of a vessel. -/
def wallSf (v : Vessel) : ℚ :=
  2 * (clampN v.length_ft + clampN v.width_ft) * clampN v.waterDepth_ft

/-- Total finish surface `floorSf + wallSf + benchSf + extraSf`. -/
def finishSf (v : Vessel) : ℚ :=
  floorSf v + wallSf v + clampN v.benchSf + clampN v.extraSf

/-- Materials: EPS bundle, per square foot of finish surface. -/
def materialsEpsBundle (cfg : Config) (v : Vessel) : ℚ :=
  if cfg.scopeMaterials then clampN cfg.epsBundlePerSf * finishSf v else 0

/-- Materials: tile and setting, on floor and walls only. -/
def materialsTile (cfg : Config) (v : Vessel) : ℚ :=
  if cfg.scopeMaterials then clampN cfg.tileMaterialsPerSf * (floorSf v + wallSf v) else 0

/-- Materials: FF&E per vessel. -/
def materialsFfe (cfg : Config) (_v : Vessel) : ℚ :=
  if cfg.scopeMaterials then clampN cfg.ffeMaterialsPerVessel else 0

/-- The unique package whose key matches and whose applicability set
includes the vessel's type (`packages.find(...)`). -/
def pkgFor (cfg : Config) (v : Vessel) : Option EquipmentPackage :=
  cfg.packages.find? (fun p => p.key == v.equipmentPackageKey && p.appliesTo.contains v.type)

/-- Equipment subtotal: sum of the clamped line-item costs of the
resolved package, 0 when the scope is off or no package matches. -/
def equipmentSubtotal (cfg : Config) (v : Vessel) : ℚ :=
  if cfg.scopeEquipment then
    match pkgFor cfg v with
    | some p => sumBy (fun it => clampN it.cost) p.items
    | none => 0
  else 0

/-- The labor accumulator before the final regional multiplication:
EPS and waterproofing labor, tile labor, FF&E install, interconnect
(with the 1.5 factor for hot tubs), handrail labor, the cold-plunge
refrigeration-line adder, and the hot-tub jet adder beyond the baseline
of 6 jets. -/
def laborInner (cfg : Config) (v : Vessel) : ℚ :=
  clampN cfg.epsWpLaborPerSf * finishSf v
    + clampN cfg.tileLaborPerSf * (floorSf v + wallSf v)
    + clampN cfg.ffeLaborPerVessel
    + (if v.type = VesselType.hotTub
        then clampN cfg.equipPlumbPerVessel * (3 / 2)
        else clampN cfg.equipPlumbPerVessel)
    + clampN cfg.handrailInstallPerEa * clampN v.handrails
    + (if v.type = VesselType.coldPlunge ∧ v.refrigerationLine
        then clampN cfg.refrigLinePerCP else 0)
    + (if v.type = VesselType.hotTub ∧ 6 < v.jets
        then (v.jets - 6) * 100 else 0)

/-- Labor subtotal, gated by the Labor scope: the accumulated labor
scaled by the regional multiplier (`labor *= clampN(regionMult)`). -/
def laborSubtotal (cfg : Config) (v : Vessel) : ℚ :=
  if cfg.scopeLabor then laborInner cfg v * clampN cfg.regionMult else 0

/-- Materials subtotal of one vessel. -/
def materialsSubtotal (cfg : Config) (v : Vessel) : ℚ :=
  materialsEpsBundle cfg v + materialsTile cfg v + materialsFfe cfg v

/-- One vessel's direct cost `materials + equipment + labor`. -/
def perVesselDirect (cfg : Config) (v : Vessel) : ℚ :=
  materialsSubtotal cfg v + equipmentSubtotal cfg v + laborSubtotal cfg v

/-! Project roll-up (`project`, part_001 lines 279-364). -/

/-- Sum of all vessels' direct costs. -/
def sumDirect (cfg : Config) (vs : List Vessel) : ℚ :=
  sumBy (perVesselDirect cfg) vs

/-- The allocation denominator `reduce(...) || 1`: the sum of direct
costs, with 0 replaced by 1. -/
def sumPreAllocBase (cfg : Config) (vs : List Vessel) : ℚ :=
  if sumDirect cfg vs = 0 then 1 else sumDirect cfg vs

/-- Pooled freight cost, gated by the Freight scope. -/
def freightTotal (cfg : Config) (vs : List Vessel) : ℚ :=
  if cfg.scopeFreight then
    (clampN cfg.miles * clampN cfg.dollarsPerMile
      + (vs.length : ℚ) * clampN cfg.handlingPerVessel) * clampN cfg.regionMult
  else 0

/-- Pooled design and engineering cost, gated by its scope. -/
def designEngineering (cfg : Config) : ℚ :=
  if cfg.scopeDesignEng then clampN cfg.designBase * clampN cfg.designMult else 0

/-- Rep on-site fee, gated by the Labor scope. -/
def repFee (cfg : Config) : ℚ :=
  if cfg.scopeLabor then clampN cfg.repOnsiteFee else 0

/-- Start-up lump cost, gated by the Labor scope. -/
def startupCost (cfg : Config) : ℚ :=
  if cfg.scopeLabor then clampN cfg.startupLump else 0

/-- Project chemical-storage cost, gated by the Equipment scope and its
own toggle. -/
def chemStorage (cfg : Config) : ℚ :=
  if cfg.scopeEquipment && cfg.useProjectChemicalStorage
  then clampN cfg.projectChemicalStorageCost else 0

/-- Rigging cost per vessel, gated by the Labor scope and its toggle. -/
def rigging (cfg : Config) (vs : List Vessel) : ℚ :=
  if cfg.scopeLabor && cfg.includeRigging
  then clampN cfg.riggingPerVessel * (vs.length : ℚ) else 0

/-- The sum of all pooled project costs allocated in Step 2. -/
def pooledCosts (cfg : Config) (vs : List Vessel) : ℚ :=
  freightTotal cfg vs + designEngineering cfg + repFee cfg + startupCost cfg
    + chemStorage cfg + rigging cfg vs

/-- One vessel's allocation share `direct / sumPreAllocBase`. -/
def allocShare (cfg : Config) (vs : List Vessel) (v : Vessel) : ℚ :=
  perVesselDirect cfg v / sumPreAllocBase cfg vs

/-- The list of allocation shares. -/
def allocShares (cfg : Config) (vs : List Vessel) : List ℚ :=
  vs.map (allocShare cfg vs)

/-- One vessel's pre-contingency base
`direct + share * (sum of pooled costs)`. -/
def preContBase1 (cfg : Config) (vs : List Vessel) (v : Vessel) : ℚ :=
  perVesselDirect cfg v + allocShare cfg vs v * pooledCosts cfg vs

/-- The list `perVesselPreContBase` of the source. -/
def perVesselPreContBase (cfg : Config) (vs : List Vessel) : List ℚ :=
  vs.map (preContBase1 cfg vs)

/-- The project base before contingency, `Σ preContBase_i`. -/
def baseBeforeCont (cfg : Config) (vs : List Vessel) : ℚ :=
  sumBy id (perVesselPreContBase cfg vs)

/-- The contingency rate, percentage over 100, gated by its scope. -/
def contRate (cfg : Config) : ℚ :=
  if cfg.scopeDesignCont then clampN cfg.designContPct / 100 else 0

/-- The total design-development contingency amount. -/
def designContAmount (cfg : Config) (vs : List Vessel) : ℚ :=
  baseBeforeCont cfg vs * contRate cfg

/-- One vessel's contingency share
`(b / (baseBeforeCont || 1)) * designContAmount`. -/
def cont1 (cfg : Config) (vs : List Vessel) (v : Vessel) : ℚ :=
  preContBase1 cfg vs v
    / (if baseBeforeCont cfg vs = 0 then 1 else baseBeforeCont cfg vs)
    * designContAmount cfg vs

/-- The list `perVesselCont` of the source. -/
def perVesselCont (cfg : Config) (vs : List Vessel) : List ℚ :=
  vs.map (cont1 cfg vs)

/-- Waste rate: percentage over 100 (no scope flag of its own). -/
def wasteRate (cfg : Config) : ℚ := clampN cfg.wastePct / 100

/-- Overhead-and-profit rate: percentage over 100. -/
def ohpRate (cfg : Config) : ℚ := clampN cfg.ohpPct / 100

/-- One vessel's base plus contingency. -/
def basePlusCont1 (cfg : Config) (vs : List Vessel) (v : Vessel) : ℚ :=
  preContBase1 cfg vs v + cont1 cfg vs v

/-- One vessel's waste amount. -/
def waste1 (cfg : Config) (vs : List Vessel) (v : Vessel) : ℚ :=
  basePlusCont1 cfg vs v * wasteRate cfg

/-- One vessel's overhead-and-profit amount. -/
def ohp1 (cfg : Config) (vs : List Vessel) (v : Vessel) : ℚ :=
  basePlusCont1 cfg vs v * ohpRate cfg

/-- One vessel's pre-warranty total `basePlusCont + waste + ohp`. -/
def preWarranty1 (cfg : Config) (vs : List Vessel) (v : Vessel) : ℚ :=
  basePlusCont1 cfg vs v + waste1 cfg vs v + ohp1 cfg vs v

/-- The warranty rate: percentage over 100, gated by the Warranty scope. -/
def wRate (cfg : Config) : ℚ :=
  if cfg.scopeWarranty then clampN cfg.warrantyPctOfClient / 100 else 0

/-- One vessel's client total: `preWarranty / (1 - wRate)` when
`wRate < 1`, and JavaScript `Infinity` otherwise (the source literally
writes `Infinity` in this branch). -/
def client1 (cfg : Config) (vs : List Vessel) (v : Vessel) : JsVal :=
  if wRate cfg < 1 then .num (preWarranty1 cfg vs v / (1 - wRate cfg)) else .inf

/-- One vessel's warranty amount `clientTotal * wRate` when the Warranty
scope is on, else 0. -/
def warranty1 (cfg : Config) (vs : List Vessel) (v : Vessel) : JsVal :=
  if cfg.scopeWarranty then (client1 cfg vs v).mulQ (wRate cfg) else .num 0

/-- The list of per-vessel client totals. -/
def perVesselClient (cfg : Config) (vs : List Vessel) : List JsVal :=
  vs.map (client1 cfg vs)

/-- The list of per-vessel warranty amounts. -/
def perVesselWarranty (cfg : Config) (vs : List Vessel) : List JsVal :=
  vs.map (warranty1 cfg vs)

/-! Roll-ups (Step 6). -/

/-- Total finish surface across vessels. -/
def finishSfTotal (vs : List Vessel) : ℚ := sumBy finishSf vs

/-- Total materials cost across vessels. -/
def materialsTotal (cfg : Config) (vs : List Vessel) : ℚ :=
  sumBy (fun v => materialsEpsBundle cfg v + materialsTile cfg v + materialsFfe cfg v) vs

/-- Total equipment cost across vessels. -/
def equipmentSubtotalVessels (cfg : Config) (vs : List Vessel) : ℚ :=
  sumBy (equipmentSubtotal cfg) vs

/-- Total labor cost across vessels. -/
def laborSubtotalProject (cfg : Config) (vs : List Vessel) : ℚ :=
  sumBy (laborSubtotal cfg) vs

/-- Project base plus contingency (`hardCostsBase` of the source). -/
def hardCostsBase (cfg : Config) (vs : List Vessel) : ℚ :=
  sumBy (basePlusCont1 cfg vs) vs

/-- Total waste amount. -/
def wasteAmount (cfg : Config) (vs : List Vessel) : ℚ :=
  sumBy (waste1 cfg vs) vs

/-- Total overhead-and-profit amount. -/
def ohpAmount (cfg : Config) (vs : List Vessel) : ℚ :=
  sumBy (ohp1 cfg vs) vs

/-- The project client price `Σ clientTotal_i`. -/
def clientPrice (cfg : Config) (vs : List Vessel) : JsVal :=
  jsSum (perVesselClient cfg vs)

/-- The total warranty reserve `Σ warranty_i`. -/
def warrantyReserve (cfg : Config) (vs : List Vessel) : JsVal :=
  jsSum (perVesselWarranty cfg vs)

/-- Profit, identified with the overhead-and-profit amount. -/
def profit (cfg : Config) (vs : List Vessel) : ℚ := ohpAmount cfg vs

/-- Gross margin percentage `profit / clientPrice * 100` when the client
price is positive, else 0. -/
def grossMarginPct (cfg : Config) (vs : List Vessel) : JsVal :=
  if (clientPrice cfg vs).gtZero then (qDivJs (profit cfg vs) (clientPrice cfg vs)).mulQ 100
  else .num 0

/-- Effective price per square foot of finish surface. -/
def effectivePerSf (cfg : Config) (vs : List Vessel) : JsVal :=
  if 0 < finishSfTotal vs then (clientPrice cfg vs).divQ (finishSfTotal vs)
  else .num 0

/-!
Geometry of the second calculator variant (`vesselCalcs`, part_001
lines 1862-1890), in which the bench and steps carry their own linear
dimensions and feature flags.
-/

/-- The geometry fields of a vessel in the second calculator variant. -/
structure VesselV2 where
  length_ft : ℚ
  width_ft : ℚ
  waterDepth_ft : ℚ
  hasBench : Bool
  benchLength_ft : ℚ
  benchDepth_ft : ℚ
  benchHeight_ft : ℚ
  hasSteps : Bool
  stepsWidth_ft : ℚ
  stepsCount : ℚ
  stepRiser_ft : ℚ
  stepTread_ft : ℚ
deriving DecidableEq

/-- JavaScript `Math.round`: round half toward positive infinity. -/
def jsRound (q : ℚ) : ℤ := ⌊q + 1 / 2⌋

/-- Floor area of a v2 vessel. -/
def floorSfV2 (v : VesselV2) : ℚ := clampN v.length_ft * clampN v.width_ft

/-- Wall area of a v2 vessel. -/
def wallSfV2 (v : VesselV2) : ℚ :=
  2 * (clampN v.length_ft + clampN v.width_ft) * clampN v.waterDepth_ft

/-- Bench surface added when the bench feature is enabled: top plus
front plus the two sides of the bench box. -/
def benchPartV2 (v : VesselV2) : ℚ :=
  if v.hasBench then
    clampN v.benchLength_ft * clampN v.benchDepth_ft
      + clampN v.benchLength_ft * clampN v.benchHeight_ft
      + 2 * (clampN v.benchDepth_ft * clampN v.benchHeight_ft)
  else 0

/-- Step surface added when the steps feature is enabled: treads plus
risers plus the two triangular side faces. -/
def stepsPartV2 (v : VesselV2) : ℚ :=
  if v.hasSteps then
    (clampN v.stepsWidth_ft * clampN v.stepTread_ft
        * ((max 1 (jsRound (clampN v.stepsCount)) : ℤ) : ℚ))
      + (clampN v.stepsWidth_ft * clampN v.stepRiser_ft
        * ((max 1 (jsRound (clampN v.stepsCount)) : ℤ) : ℚ))
      + 2 * ((((max 1 (jsRound (clampN v.stepsCount)) : ℤ) : ℚ) * clampN v.stepRiser_ft / 2)
        * ((((max 1 (jsRound (clampN v.stepsCount)) : ℤ) : ℚ)) * clampN v.stepTread_ft))
  else 0

/-- The accumulated `benchSf` of the second variant: bench surface plus
step surface. -/
def benchSfV2 (v : VesselV2) : ℚ := benchPartV2 v + stepsPartV2 v

/-- Total finish surface of a v2 vessel. -/
def finishSfV2 (v : VesselV2) : ℚ := floorSfV2 v + wallSfV2 v + benchSfV2 v

/-!
Scope flags as first-class values, for the scope-zeroing property.
-/

/-- The seven scope flags of the calculator. -/
inductive ScopeFlag where
  | materials
  | labor
  | equipment
  | freight
  | designEng
  | designCont
  | warranty
deriving DecidableEq, Fintype

/-- Set one scope flag of a configuration. -/
def setFlag : ScopeFlag → Bool → Config → Config
  | .materials, b, cfg => { cfg with scopeMaterials := b }
  | .labor, b, cfg => { cfg with scopeLabor := b }
  | .equipment, b, cfg => { cfg with scopeEquipment := b }
  | .freight, b, cfg => { cfg with scopeFreight := b }
  | .designEng, b, cfg => { cfg with scopeDesignEng := b }
  | .designCont, b, cfg => { cfg with scopeDesignCont := b }
  | .warranty, b, cfg => { cfg with scopeWarranty := b }

/-- The cost bucket gated by a scope flag is identically zero: the
bucket of a flag consists of exactly the quantities that the source
guards with that flag (for Labor this includes the pooled rep fee,
start-up and rigging costs; for Equipment the pooled chemical-storage
cost). -/
def bucketZero : ScopeFlag → Config → List Vessel → Prop
  | .materials, cfg, vs =>
      ∀ v ∈ vs, materialsEpsBundle cfg v = 0 ∧ materialsTile cfg v = 0
        ∧ materialsFfe cfg v = 0
  | .labor, cfg, vs =>
      (∀ v ∈ vs, laborSubtotal cfg v = 0)
        ∧ repFee cfg = 0 ∧ startupCost cfg = 0 ∧ rigging cfg vs = 0
  | .equipment, cfg, vs =>
      (∀ v ∈ vs, equipmentSubtotal cfg v = 0) ∧ chemStorage cfg = 0
  | .freight, cfg, vs => freightTotal cfg vs = 0
  | .designEng, cfg, _vs => designEngineering cfg = 0
  | .designCont, cfg, vs =>
      designContAmount cfg vs = 0 ∧ ∀ v ∈ vs, cont1 cfg vs v = 0
  | .warranty, cfg, vs =>
      (∀ v ∈ vs, warranty1 cfg vs v = JsVal.num 0)
        ∧ warrantyReserve cfg vs = JsVal.num 0

/-!
Rate fields as first-class values, for the monotonicity property.
-/

/-- The numeric rate fields of the configuration. -/
inductive RateField where
  | epsBundlePerSf
  | tileMaterialsPerSf
  | ffeMaterialsPerVessel
  | epsWpLaborPerSf
  | tileLaborPerSf
  | ffeLaborPerVessel
  | equipPlumbPerVessel
  | handrailInstallPerEa
  | refrigLinePerCP
  | startupLump
  | repOnsiteFee
  | riggingPerVessel
  | regionMult
  | miles
  | dollarsPerMile
  | handlingPerVessel
  | designBase
  | designMult
  | designContPct
  | warrantyPctOfClient
  | ohpPct
  | wastePct
  | projectChemicalStorageCost
deriving DecidableEq, Fintype

/-- Set one rate field of a configuration. -/
def setRate : RateField → ℚ → Config → Config
  | .epsBundlePerSf, x, cfg => { cfg with epsBundlePerSf := x }
  | .tileMaterialsPerSf, x, cfg => { cfg with tileMaterialsPerSf := x }
  | .ffeMaterialsPerVessel, x, cfg => { cfg with ffeMaterialsPerVessel := x }
  | .epsWpLaborPerSf, x, cfg => { cfg with epsWpLaborPerSf := x }
  | .tileLaborPerSf, x, cfg => { cfg with tileLaborPerSf := x }
  | .ffeLaborPerVessel, x, cfg => { cfg with ffeLaborPerVessel := x }
  | .equipPlumbPerVessel, x, cfg => { cfg with equipPlumbPerVessel := x }
  | .handrailInstallPerEa, x, cfg => { cfg with handrailInstallPerEa := x }
  | .refrigLinePerCP, x, cfg => { cfg with refrigLinePerCP := x }
  | .startupLump, x, cfg => { cfg with startupLump := x }
  | .repOnsiteFee, x, cfg => { cfg with repOnsiteFee := x }
  | .riggingPerVessel, x, cfg => { cfg with riggingPerVessel := x }
  | .regionMult, x, cfg => { cfg with regionMult := x }
  | .miles, x, cfg => { cfg with miles := x }
  | .dollarsPerMile, x, cfg => { cfg with dollarsPerMile := x }
  | .handlingPerVessel, x, cfg => { cfg with handlingPerVessel := x }
  | .designBase, x, cfg => { cfg with designBase := x }
  | .designMult, x, cfg => { cfg with designMult := x }
  | .designContPct, x, cfg => { cfg with designContPct := x }
  | .warrantyPctOfClient, x, cfg => { cfg with warrantyPctOfClient := x }
  | .ohpPct, x, cfg => { cfg with ohpPct := x }
  | .wastePct, x, cfg => { cfg with wastePct := x }
  | .projectChemicalStorageCost, x, cfg => { cfg with projectChemicalStorageCost := x }

/-- Pointwise comparison of two configurations: equal flags, toggles and
packages, and every numeric rate field no larger on the left. -/
structure ConfigLE (c₁ c₂ : Config) : Prop where
  scopeMaterials : c₁.scopeMaterials = c₂.scopeMaterials
  scopeLabor : c₁.scopeLabor = c₂.scopeLabor
  scopeEquipment : c₁.scopeEquipment = c₂.scopeEquipment
  scopeFreight : c₁.scopeFreight = c₂.scopeFreight
  scopeDesignEng : c₁.scopeDesignEng = c₂.scopeDesignEng
  scopeDesignCont : c₁.scopeDesignCont = c₂.scopeDesignCont
  scopeWarranty : c₁.scopeWarranty = c₂.scopeWarranty
  includeRigging : c₁.includeRigging = c₂.includeRigging
  useProjectChemicalStorage : c₁.useProjectChemicalStorage = c₂.useProjectChemicalStorage
  packages : c₁.packages = c₂.packages
  epsBundlePerSf : c₁.epsBundlePerSf ≤ c₂.epsBundlePerSf
  tileMaterialsPerSf : c₁.tileMaterialsPerSf ≤ c₂.tileMaterialsPerSf
  ffeMaterialsPerVessel : c₁.ffeMaterialsPerVessel ≤ c₂.ffeMaterialsPerVessel
  epsWpLaborPerSf : c₁.epsWpLaborPerSf ≤ c₂.epsWpLaborPerSf
  tileLaborPerSf : c₁.tileLaborPerSf ≤ c₂.tileLaborPerSf
  ffeLaborPerVessel : c₁.ffeLaborPerVessel ≤ c₂.ffeLaborPerVessel
  equipPlumbPerVessel : c₁.equipPlumbPerVessel ≤ c₂.equipPlumbPerVessel
  handrailInstallPerEa : c₁.handrailInstallPerEa ≤ c₂.handrailInstallPerEa
  refrigLinePerCP : c₁.refrigLinePerCP ≤ c₂.refrigLinePerCP
  startupLump : c₁.startupLump ≤ c₂.startupLump
  repOnsiteFee : c₁.repOnsiteFee ≤ c₂.repOnsiteFee
  riggingPerVessel : c₁.riggingPerVessel ≤ c₂.riggingPerVessel
  regionMult : c₁.regionMult ≤ c₂.regionMult
  miles : c₁.miles ≤ c₂.miles
  dollarsPerMile : c₁.dollarsPerMile ≤ c₂.dollarsPerMile
  handlingPerVessel : c₁.handlingPerVessel ≤ c₂.handlingPerVessel
  designBase : c₁.designBase ≤ c₂.designBase
  designMult : c₁.designMult ≤ c₂.designMult
  designContPct : c₁.designContPct ≤ c₂.designContPct
  warrantyPctOfClient : c₁.warrantyPctOfClient ≤ c₂.warrantyPctOfClient
  ohpPct : c₁.ohpPct ≤ c₂.ohpPct
  wastePct : c₁.wastePct ≤ c₂.wastePct
  projectChemicalStorageCost : c₁.projectChemicalStorageCost ≤ c₂.projectChemicalStorageCost

/-!
Concrete sample data, used for witnesses and counterexamples.
-/

/-- A small equipment package for the sample data. -/
def pkgDemo : EquipmentPackage :=
  { key := "cp-demo", label := "CP Demo", appliesTo := [VesselType.coldPlunge],
    items := [{ label := "Chiller", cost := 1 }] }

/-- A small cold-plunge vessel for the sample data. -/
def vDemo : Vessel :=
  { type := VesselType.coldPlunge, name := "CP-1",
    length_ft := 1, width_ft := 1, waterDepth_ft := 1,
    benchSf := 0, extraSf := 0, handrails := 1,
    refrigerationLine := true, jets := 0, equipmentPackageKey := "cp-demo" }

/-- The sample vessel list. -/
def vsDemo : List Vessel := [vDemo]

/-- A sample configuration: every scope enabled, every rate 1, the
percentages 100 (contingency, waste, overhead and profit) and 50
(warranty). -/
def cfgDemo : Config :=
  { scopeMaterials := true, scopeLabor := true, scopeEquipment := true,
    scopeFreight := true, scopeDesignEng := true, scopeDesignCont := true,
    scopeWarranty := true,
    epsBundlePerSf := 1, tileMaterialsPerSf := 1, ffeMaterialsPerVessel := 1,
    epsWpLaborPerSf := 1, tileLaborPerSf := 1, ffeLaborPerVessel := 1,
    equipPlumbPerVessel := 1, handrailInstallPerEa := 1, refrigLinePerCP := 1,
    startupLump := 1, repOnsiteFee := 1,
    includeRigging := true, riggingPerVessel := 1, regionMult := 1,
    miles := 1, dollarsPerMile := 1, handlingPerVessel := 1,
    designBase := 1, designMult := 1, designContPct := 100,
    warrantyPctOfClient := 50, ohpPct := 100, wastePct := 100,
    useProjectChemicalStorage := true, projectChemicalStorageCost := 1,
    packages := [pkgDemo] }

/-- The default configuration of the source (the `useState` initial
values), with the default package catalog elided. -/
def cfgDefault : Config :=
  { scopeMaterials := true, scopeLabor := true, scopeEquipment := true,
    scopeFreight := true, scopeDesignEng := true, scopeDesignCont := true,
    scopeWarranty := true,
    epsBundlePerSf := 6, tileMaterialsPerSf := 20, ffeMaterialsPerVessel := 2000,
    epsWpLaborPerSf := 40, tileLaborPerSf := 40, ffeLaborPerVessel := 600,
    equipPlumbPerVessel := 15000, handrailInstallPerEa := 0, refrigLinePerCP := 1800,
    startupLump := 3500, repOnsiteFee := 4000,
    includeRigging := true, riggingPerVessel := 2000, regionMult := 1,
    miles := 1000, dollarsPerMile := 17 / 4, handlingPerVessel := 1000,
    designBase := 25000, designMult := 1, designContPct := 15 / 2,
    warrantyPctOfClient := 3 / 2, ohpPct := 12, wastePct := 15 / 2,
    useProjectChemicalStorage := true, projectChemicalStorageCost := 1200,
    packages := [pkgDemo] }

/-- The demo configuration with the warranty percentage set to 100. -/
def cfgDegenerate : Config := { cfgDemo with warrantyPctOfClient := 100 }

/-- The demo configuration with the Materials, Labor and Equipment
scopes all disabled, so that every direct cost is 0. -/
def cfgNoDirect : Config :=
  { cfgDemo with scopeMaterials := false, scopeLabor := false, scopeEquipment := false }

/-!
Basic lemmas about the summation helper and the clamp.
-/

lemma foldl_add_eq {α : Type} (f : α → ℚ) (l : List α) (init : ℚ) :
    l.foldl (fun s x => s + f x) init = init + (l.map f).sum := by
  induction l generalizing init with
  | nil => simp
  | cons a t ih => simp [ih, add_assoc]

lemma sumBy_eq {α : Type} (f : α → ℚ) (l : List α) :
    sumBy f l = (l.map f).sum := by
  simp [sumBy, foldl_add_eq]

lemma sumBy_nil {α : Type} (f : α → ℚ) : sumBy f ([] : List α) = 0 := rfl

lemma sumBy_cons {α : Type} (f : α → ℚ) (a : α) (l : List α) :
    sumBy f (a :: l) = f a + sumBy f l := by
  simp [sumBy_eq]

lemma sumBy_congr {α : Type} {f g : α → ℚ} {l : List α}
    (h : ∀ x ∈ l, f x = g x) : sumBy f l = sumBy g l := by
  induction l with
  | nil => rfl
  | cons a t ih =>
      rw [sumBy_cons, sumBy_cons, h a (by simp), ih (fun x hx => h x (by simp [hx]))]

lemma sumBy_add {α : Type} (f g : α → ℚ) (l : List α) :
    sumBy (fun x => f x + g x) l = sumBy f l + sumBy g l := by
  induction l with
  | nil => simp [sumBy_nil]
  | cons a t ih => rw [sumBy_cons, sumBy_cons, sumBy_cons, ih]; ring

lemma sumBy_mul_right {α : Type} (f : α → ℚ) (k : ℚ) (l : List α) :
    sumBy (fun x => f x * k) l = sumBy f l * k := by
  induction l with
  | nil => simp [sumBy_nil]
  | cons a t ih => rw [sumBy_cons, sumBy_cons, ih]; ring

lemma sumBy_zero {α : Type} (l : List α) : sumBy (fun _ => (0 : ℚ)) l = 0 := by
  induction l with
  | nil => rfl
  | cons a t ih => rw [sumBy_cons, ih]; ring

lemma sumBy_of_all_zero {α : Type} {f : α → ℚ} {l : List α}
    (h : ∀ x ∈ l, f x = 0) : sumBy f l = 0 := by
  rw [sumBy_congr h, sumBy_zero]

lemma sumBy_id_map {α : Type} (g : α → ℚ) (l : List α) :
    sumBy id (l.map g) = sumBy g l := by
  simp [sumBy_eq, List.map_map, Function.comp]

lemma sumBy_nonneg {α : Type} {f : α → ℚ} {l : List α}
    (h : ∀ x ∈ l, 0 ≤ f x) : 0 ≤ sumBy f l := by
  rw [sumBy_eq]
  apply List.sum_nonneg
  intro q hq
  obtain ⟨a, ha, rfl⟩ := List.mem_map.mp hq
  exact h a ha

lemma sumBy_eq_zero {α : Type} {f : α → ℚ} {l : List α}
    (hpos : ∀ x ∈ l, 0 ≤ f x) (hsum : sumBy f l = 0) : ∀ x ∈ l, f x = 0 := by
  induction l with
  | nil => intro x hx; cases hx
  | cons a t ih =>
      rw [sumBy_cons] at hsum
      have ha : 0 ≤ f a := hpos a (by simp)
      have ht : 0 ≤ sumBy f t :=
        sumBy_nonneg (fun x hx => hpos x (by simp [hx]))
      have ha0 : f a = 0 := by linarith
      have ht0 : sumBy f t = 0 := by linarith
      intro x hx
      rcases List.mem_cons.mp hx with rfl | hx
      · exact ha0
      · exact ih (fun y hy => hpos y (by simp [hy])) ht0 x hx

lemma sumBy_mono {α : Type} {f g : α → ℚ} {l : List α}
    (h : ∀ x ∈ l, f x ≤ g x) : sumBy f l ≤ sumBy g l := by
  induction l with
  | nil => simp [sumBy_nil]
  | cons a t ih =>
      rw [sumBy_cons, sumBy_cons]
      exact add_le_add (h a (by simp)) (ih (fun x hx => h x (by simp [hx])))

lemma clampN_nonneg (q : ℚ) : 0 ≤ clampN q := by
  unfold clampN; split_ifs with h
  · exact le_refl 0
  · exact le_of_not_lt h

lemma clampN_mono {a b : ℚ} (h : a ≤ b) : clampN a ≤ clampN b := by
  unfold clampN; split_ifs <;> linarith

/-!
Non-negativity of every quantity of the pipeline.
-/

lemma floorSf_nonneg (v : Vessel) : 0 ≤ floorSf v :=
  mul_nonneg (clampN_nonneg _) (clampN_nonneg _)

lemma wallSf_nonneg (v : Vessel) : 0 ≤ wallSf v :=
  mul_nonneg (mul_nonneg (by norm_num) (add_nonneg (clampN_nonneg _) (clampN_nonneg _)))
    (clampN_nonneg _)

lemma finishSf_nonneg (v : Vessel) : 0 ≤ finishSf v :=
  add_nonneg (add_nonneg (add_nonneg (floorSf_nonneg v) (wallSf_nonneg v))
    (clampN_nonneg _)) (clampN_nonneg _)

lemma materialsEpsBundle_nonneg (cfg : Config) (v : Vessel) :
    0 ≤ materialsEpsBundle cfg v := by
  unfold materialsEpsBundle; split_ifs
  · exact mul_nonneg (clampN_nonneg _) (finishSf_nonneg v)
  · exact le_refl 0

lemma materialsTile_nonneg (cfg : Config) (v : Vessel) : 0 ≤ materialsTile cfg v := by
  unfold materialsTile; split_ifs
  · exact mul_nonneg (clampN_nonneg _) (add_nonneg (floorSf_nonneg v) (wallSf_nonneg v))
  · exact le_refl 0

lemma materialsFfe_nonneg (cfg : Config) (v : Vessel) : 0 ≤ materialsFfe cfg v := by
  unfold materialsFfe; split_ifs
  · exact clampN_nonneg _
  · exact le_refl 0

lemma materialsSubtotal_nonneg (cfg : Config) (v : Vessel) :
    0 ≤ materialsSubtotal cfg v :=
  add_nonneg (add_nonneg (materialsEpsBundle_nonneg cfg v) (materialsTile_nonneg cfg v))
    (materialsFfe_nonneg cfg v)

lemma equipmentSubtotal_nonneg (cfg : Config) (v : Vessel) :
    0 ≤ equipmentSubtotal cfg v := by
  unfold equipmentSubtotal; split_ifs
  · cases pkgFor cfg v with
    | some p => exact sumBy_nonneg (fun it _ => clampN_nonneg it.cost)
    | none => exact le_refl 0
  · exact le_refl 0

lemma laborInner_nonneg (cfg : Config) (v : Vessel) : 0 ≤ laborInner cfg v := by
  unfold laborInner
  have h1 : 0 ≤ clampN cfg.epsWpLaborPerSf * finishSf v :=
    mul_nonneg (clampN_nonneg _) (finishSf_nonneg v)
  have h2 : 0 ≤ clampN cfg.tileLaborPerSf * (floorSf v + wallSf v) :=
    mul_nonneg (clampN_nonneg _) (add_nonneg (floorSf_nonneg v) (wallSf_nonneg v))
  have h3 : 0 ≤ clampN cfg.ffeLaborPerVessel := clampN_nonneg _
  have h4 : 0 ≤ (if v.type = VesselType.hotTub
      then clampN cfg.equipPlumbPerVessel * (3 / 2) else clampN cfg.equipPlumbPerVessel) := by
    split_ifs
    · exact mul_nonneg (clampN_nonneg _) (by norm_num)
    · exact clampN_nonneg _
  have h5 : 0 ≤ clampN cfg.handrailInstallPerEa * clampN v.handrails :=
    mul_nonneg (clampN_nonneg _) (clampN_nonneg _)
  have h6 : 0 ≤ (if v.type = VesselType.coldPlunge ∧ v.refrigerationLine
      then clampN cfg.refrigLinePerCP else 0) := by
    split_ifs
    · exact clampN_nonneg _
    · exact le_refl 0
  have h7 : 0 ≤ (if v.type = VesselType.hotTub ∧ 6 < v.jets
      then (v.jets - 6) * 100 else 0) := by
    split_ifs with h
    · have : (0 : ℚ) ≤ v.jets - 6 := by linarith [h.2]
      exact mul_nonneg this (by norm_num)
    · exact le_refl 0
  linarith

lemma laborSubtotal_nonneg (cfg : Config) (v : Vessel) : 0 ≤ laborSubtotal cfg v := by
  unfold laborSubtotal; split_ifs
  · exact mul_nonneg (laborInner_nonneg cfg v) (clampN_nonneg _)
  · exact le_refl 0

lemma perVesselDirect_nonneg (cfg : Config) (v : Vessel) : 0 ≤ perVesselDirect cfg v :=
  add_nonneg (add_nonneg (materialsSubtotal_nonneg cfg v) (equipmentSubtotal_nonneg cfg v))
    (laborSubtotal_nonneg cfg v)

lemma sumDirect_nonneg (cfg : Config) (vs : List Vessel) : 0 ≤ sumDirect cfg vs :=
  sumBy_nonneg (fun v _ => perVesselDirect_nonneg cfg v)

lemma sumPreAllocBase_pos (cfg : Config) (vs : List Vessel) :
    0 < sumPreAllocBase cfg vs := by
  unfold sumPreAllocBase; split_ifs with h
  · norm_num
  · exact lt_of_le_of_ne (sumDirect_nonneg cfg vs) (Ne.symm h)

lemma freightTotal_nonneg (cfg : Config) (vs : List Vessel) : 0 ≤ freightTotal cfg vs := by
  unfold freightTotal; split_ifs
  · exact mul_nonneg (add_nonneg (mul_nonneg (clampN_nonneg _) (clampN_nonneg _))
      (mul_nonneg (Nat.cast_nonneg _) (clampN_nonneg _))) (clampN_nonneg _)
  · exact le_refl 0

lemma designEngineering_nonneg (cfg : Config) : 0 ≤ designEngineering cfg := by
  unfold designEngineering; split_ifs
  · exact mul_nonneg (clampN_nonneg _) (clampN_nonneg _)
  · exact le_refl 0

lemma repFee_nonneg (cfg : Config) : 0 ≤ repFee cfg := by
  unfold repFee; split_ifs
  · exact clampN_nonneg _
  · exact le_refl 0

lemma startupCost_nonneg (cfg : Config) : 0 ≤ startupCost cfg := by
  unfold startupCost; split_ifs
  · exact clampN_nonneg _
  · exact le_refl 0

lemma chemStorage_nonneg (cfg : Config) : 0 ≤ chemStorage cfg := by
  unfold chemStorage; split_ifs
  · exact clampN_nonneg _
  · exact le_refl 0

lemma rigging_nonneg (cfg : Config) (vs : List Vessel) : 0 ≤ rigging cfg vs := by
  unfold rigging; split_ifs
  · exact mul_nonneg (clampN_nonneg _) (Nat.cast_nonneg _)
  · exact le_refl 0

lemma pooledCosts_nonneg (cfg : Config) (vs : List Vessel) : 0 ≤ pooledCosts cfg vs :=
  add_nonneg (add_nonneg (add_nonneg (add_nonneg (add_nonneg
    (freightTotal_nonneg cfg vs) (designEngineering_nonneg cfg))
    (repFee_nonneg cfg)) (startupCost_nonneg cfg)) (chemStorage_nonneg cfg))
    (rigging_nonneg cfg vs)

lemma contRate_nonneg (cfg : Config) : 0 ≤ contRate cfg := by
  unfold contRate; split_ifs
  · exact div_nonneg (clampN_nonneg _) (by norm_num)
  · exact le_refl 0

lemma wasteRate_nonneg (cfg : Config) : 0 ≤ wasteRate cfg :=
  div_nonneg (clampN_nonneg _) (by norm_num)

lemma ohpRate_nonneg (cfg : Config) : 0 ≤ ohpRate cfg :=
  div_nonneg (clampN_nonneg _) (by norm_num)

lemma wRate_nonneg (cfg : Config) : 0 ≤ wRate cfg := by
  unfold wRate; split_ifs
  · exact div_nonneg (clampN_nonneg _) (by norm_num)
  · exact le_refl 0

lemma preContBase1_nonneg (cfg : Config) (vs : List Vessel) (v : Vessel) :
    0 ≤ preContBase1 cfg vs v := by
  unfold preContBase1 allocShare
  have := perVesselDirect_nonneg cfg v
  have := pooledCosts_nonneg cfg vs
  have := (sumPreAllocBase_pos cfg vs).le
  positivity

lemma baseBeforeCont_nonneg (cfg : Config) (vs : List Vessel) :
    0 ≤ baseBeforeCont cfg vs := by
  unfold baseBeforeCont perVesselPreContBase
  rw [sumBy_id_map]
  exact sumBy_nonneg (fun v _ => preContBase1_nonneg cfg vs v)

/-!
Closed forms of the allocation and markup steps.
-/

lemma baseBeforeCont_eq (cfg : Config) (vs : List Vessel) :
    baseBeforeCont cfg vs
      = sumDirect cfg vs + sumDirect cfg vs / sumPreAllocBase cfg vs * pooledCosts cfg vs := by
  unfold baseBeforeCont perVesselPreContBase
  rw [sumBy_id_map]
  have h : ∀ v ∈ vs, preContBase1 cfg vs v
      = perVesselDirect cfg v
        + perVesselDirect cfg v * (pooledCosts cfg vs / sumPreAllocBase cfg vs) := by
    intro v _
    unfold preContBase1 allocShare
    ring
  rw [sumBy_congr h, sumBy_add, sumBy_mul_right]
  unfold sumDirect
  ring

lemma baseBeforeCont_cases (cfg : Config) (vs : List Vessel) :
    baseBeforeCont cfg vs
      = if sumDirect cfg vs = 0 then 0 else sumDirect cfg vs + pooledCosts cfg vs := by
  rw [baseBeforeCont_eq]
  split_ifs with h
  · rw [h]; ring
  · unfold sumPreAllocBase
    rw [if_neg h, div_self h, one_mul]

lemma sum_cont_eq (cfg : Config) (vs : List Vessel) :
    sumBy (cont1 cfg vs) vs = designContAmount cfg vs := by
  have h : ∀ v ∈ vs, cont1 cfg vs v
      = preContBase1 cfg vs v
        * (designContAmount cfg vs
          / (if baseBeforeCont cfg vs = 0 then 1 else baseBeforeCont cfg vs)) := by
    intro v _
    unfold cont1
    ring
  rw [sumBy_congr h, sumBy_mul_right]
  have hB : sumBy (preContBase1 cfg vs) vs = baseBeforeCont cfg vs := by
    unfold baseBeforeCont perVesselPreContBase
    rw [sumBy_id_map]
  rw [hB]
  by_cases h0 : baseBeforeCont cfg vs = 0
  · unfold designContAmount
    rw [h0]
    ring
  · rw [if_neg h0]
    field_simp

lemma hardCostsBase_eq (cfg : Config) (vs : List Vessel) :
    hardCostsBase cfg vs = baseBeforeCont cfg vs + designContAmount cfg vs := by
  unfold hardCostsBase basePlusCont1
  rw [sumBy_add]
  congr 1
  · unfold baseBeforeCont perVesselPreContBase
    rw [sumBy_id_map]
  · exact sum_cont_eq cfg vs

lemma sum_preWarranty_eq (cfg : Config) (vs : List Vessel) :
    sumBy (preWarranty1 cfg vs) vs
      = hardCostsBase cfg vs * (1 + wasteRate cfg + ohpRate cfg) := by
  have h : ∀ v ∈ vs, preWarranty1 cfg vs v
      = basePlusCont1 cfg vs v * (1 + wasteRate cfg + ohpRate cfg) := by
    intro v _
    unfold preWarranty1 waste1 ohp1
    ring
  rw [sumBy_congr h, sumBy_mul_right]
  rfl

lemma jsSum_map_num {α : Type} (f : α → ℚ) (l : List α) :
    jsSum (l.map (fun x => JsVal.num (f x))) = JsVal.num (sumBy f l) := by
  unfold jsSum
  suffices h : ∀ q : ℚ, (l.map (fun x => JsVal.num (f x))).foldl JsVal.add (JsVal.num q)
      = JsVal.num (q + sumBy f l) by
    simpa using h 0
  induction l with
  | nil => intro q; simp [sumBy_nil]
  | cons a t ih => intro q; simp [JsVal.add, sumBy_cons, ih, add_assoc]

lemma jsSum_map_inf {α : Type} (l : List α) (h : l ≠ []) :
    jsSum (l.map (fun _ => JsVal.inf)) = JsVal.inf := by
  unfold jsSum
  have h2 : ∀ t : List α, (t.map (fun _ => JsVal.inf)).foldl JsVal.add JsVal.inf = JsVal.inf := by
    intro t
    induction t with
    | nil => rfl
    | cons b r ih => simpa [JsVal.add] using ih
  cases l with
  | nil => exact absurd rfl h
  | cons a t => simpa [JsVal.add] using h2 t

lemma clientPrice_eq (cfg : Config) (vs : List Vessel) :
    clientPrice cfg vs =
      if wRate cfg < 1 then JsVal.num (sumBy (preWarranty1 cfg vs) vs / (1 - wRate cfg))
      else if vs = [] then JsVal.num 0 else JsVal.inf := by
  unfold clientPrice perVesselClient client1
  split_ifs with h1 h2
  · rw [jsSum_map_num]
    congr 1
    have h : ∀ v ∈ vs, preWarranty1 cfg vs v / (1 - wRate cfg)
        = preWarranty1 cfg vs v * (1 - wRate cfg)⁻¹ := by
      intro v _
      rw [div_eq_mul_inv]
    rw [sumBy_congr h, sumBy_mul_right, ← div_eq_mul_inv]
  · subst h2
    simp [jsSum]
  · exact jsSum_map_inf vs h2

lemma clientPrice_closed (cfg : Config) (vs : List Vessel) :
    clientPrice cfg vs =
      if wRate cfg < 1 then
        JsVal.num ((if sumDirect cfg vs = 0 then 0 else sumDirect cfg vs + pooledCosts cfg vs)
          * (1 + contRate cfg) * (1 + wasteRate cfg + ohpRate cfg) / (1 - wRate cfg))
      else if vs = [] then JsVal.num 0 else JsVal.inf := by
  have hhc : hardCostsBase cfg vs = baseBeforeCont cfg vs * (1 + contRate cfg) := by
    rw [hardCostsBase_eq]
    unfold designContAmount
    ring
  rw [clientPrice_eq, sum_preWarranty_eq, hhc, baseBeforeCont_cases]

/-!
Scope zeroing: disabling a flag zeroes exactly the quantities the
source gates with that flag.
-/

lemma jsSum_map_num_zero (vs : List Vessel) :
    jsSum (vs.map (fun _ => JsVal.num 0)) = JsVal.num 0 := by
  have h := jsSum_map_num (fun _ : Vessel => (0 : ℚ)) vs
  rw [sumBy_zero] at h
  exact h

lemma bucketZero_of_disabled (cfg : Config) (vs : List Vessel) (f : ScopeFlag) :
    bucketZero f (setFlag f false cfg) vs := by
  cases f with
  | materials =>
      intro v _
      refine ⟨?_, ?_, ?_⟩ <;> simp [setFlag, materialsEpsBundle, materialsTile, materialsFfe]
  | labor =>
      refine ⟨fun v _ => ?_, ?_, ?_, ?_⟩
      · simp [setFlag, laborSubtotal]
      · simp [setFlag, repFee]
      · simp [setFlag, startupCost]
      · simp [setFlag, rigging]
  | equipment =>
      refine ⟨fun v _ => ?_, ?_⟩
      · simp [setFlag, equipmentSubtotal]
      · simp [setFlag, chemStorage]
  | freight => simp [bucketZero, setFlag, freightTotal]
  | designEng => simp [bucketZero, setFlag, designEngineering]
  | designCont =>
      refine ⟨?_, fun v _ => ?_⟩
      · simp [setFlag, designContAmount, contRate]
      · simp [setFlag, cont1, designContAmount, contRate]
  | warranty =>
      have hw : ∀ v : Vessel,
          warranty1 (setFlag ScopeFlag.warranty false cfg) vs v = JsVal.num 0 := by
        intro v
        simp [setFlag, warranty1]
      refine ⟨fun v _ => hw v, ?_⟩
      unfold warrantyReserve perVesselWarranty
      rw [List.map_congr_left (fun v _ => hw v)]
      exact jsSum_map_num_zero vs

set_option maxHeartbeats 2000000 in
lemma bucketNonzero_of_other (f g : ScopeFlag) (hfg : f ≠ g) :
    ¬ bucketZero g (setFlag f false cfgDemo) vsDemo := by
  cases f <;> cases g <;>
    first
      | exact absurd rfl hfg
      | norm_num [bucketZero, setFlag, cfgDemo, vsDemo, vDemo, pkgDemo, materialsEpsBundle,
          materialsTile, materialsFfe, equipmentSubtotal, pkgFor, laborSubtotal, laborInner,
          finishSf, floorSf, wallSf, clampN, repFee, startupCost, rigging, chemStorage,
          freightTotal, designEngineering, designContAmount, contRate, baseBeforeCont,
          perVesselPreContBase, preContBase1, allocShare, sumPreAllocBase, sumDirect, sumBy,
          perVesselDirect, materialsSubtotal, pooledCosts, cont1, warranty1, client1, wRate,
          preWarranty1, basePlusCont1, waste1, ohp1, wasteRate, ohpRate, warrantyReserve,
          perVesselWarranty, jsSum, JsVal.add, JsVal.mulQ, List.find?, List.contains]

/-!
Monotonicity of the client price in every rate field.
-/

lemma JsVal.le_num_num {a b : ℚ} : JsVal.le (.num a) (.num b) ↔ a ≤ b := Iff.rfl

lemma JsVal.le_num_inf (q : ℚ) : JsVal.le (.num q) .inf := by
  simp [JsVal.le]

lemma JsVal.le_inf_inf : JsVal.le .inf .inf := by
  simp [JsVal.le]

lemma configLE_setRate (f : RateField) {x y : ℚ} (hxy : x ≤ y) (cfg : Config) :
    ConfigLE (setRate f x cfg) (setRate f y cfg) := by
  cases f <;> exact {
    scopeMaterials := rfl, scopeLabor := rfl, scopeEquipment := rfl,
    scopeFreight := rfl, scopeDesignEng := rfl, scopeDesignCont := rfl,
    scopeWarranty := rfl, includeRigging := rfl, useProjectChemicalStorage := rfl,
    packages := rfl,
    epsBundlePerSf := by first | exact hxy | exact le_refl _,
    tileMaterialsPerSf := by first | exact hxy | exact le_refl _,
    ffeMaterialsPerVessel := by first | exact hxy | exact le_refl _,
    epsWpLaborPerSf := by first | exact hxy | exact le_refl _,
    tileLaborPerSf := by first | exact hxy | exact le_refl _,
    ffeLaborPerVessel := by first | exact hxy | exact le_refl _,
    equipPlumbPerVessel := by first | exact hxy | exact le_refl _,
    handrailInstallPerEa := by first | exact hxy | exact le_refl _,
    refrigLinePerCP := by first | exact hxy | exact le_refl _,
    startupLump := by first | exact hxy | exact le_refl _,
    repOnsiteFee := by first | exact hxy | exact le_refl _,
    riggingPerVessel := by first | exact hxy | exact le_refl _,
    regionMult := by first | exact hxy | exact le_refl _,
    miles := by first | exact hxy | exact le_refl _,
    dollarsPerMile := by first | exact hxy | exact le_refl _,
    handlingPerVessel := by first | exact hxy | exact le_refl _,
    designBase := by first | exact hxy | exact le_refl _,
    designMult := by first | exact hxy | exact le_refl _,
    designContPct := by first | exact hxy | exact le_refl _,
    warrantyPctOfClient := by first | exact hxy | exact le_refl _,
    ohpPct := by first | exact hxy | exact le_refl _,
    wastePct := by first | exact hxy | exact le_refl _,
    projectChemicalStorageCost := by first | exact hxy | exact le_refl _ }

section Monotonicity

variable {c₁ c₂ : Config}

lemma materialsEpsBundle_mono (h : ConfigLE c₁ c₂) (v : Vessel) :
    materialsEpsBundle c₁ v ≤ materialsEpsBundle c₂ v := by
  unfold materialsEpsBundle
  rw [h.scopeMaterials]
  split_ifs
  · exact mul_le_mul_of_nonneg_right (clampN_mono h.epsBundlePerSf) (finishSf_nonneg v)
  · exact le_refl 0

lemma materialsTile_mono (h : ConfigLE c₁ c₂) (v : Vessel) :
    materialsTile c₁ v ≤ materialsTile c₂ v := by
  unfold materialsTile
  rw [h.scopeMaterials]
  split_ifs
  · exact mul_le_mul_of_nonneg_right (clampN_mono h.tileMaterialsPerSf)
      (add_nonneg (floorSf_nonneg v) (wallSf_nonneg v))
  · exact le_refl 0

lemma materialsFfe_mono (h : ConfigLE c₁ c₂) (v : Vessel) :
    materialsFfe c₁ v ≤ materialsFfe c₂ v := by
  unfold materialsFfe
  rw [h.scopeMaterials]
  split_ifs
  · exact clampN_mono h.ffeMaterialsPerVessel
  · exact le_refl 0

lemma equipmentSubtotal_eq_of_le (h : ConfigLE c₁ c₂) (v : Vessel) :
    equipmentSubtotal c₁ v = equipmentSubtotal c₂ v := by
  unfold equipmentSubtotal pkgFor
  rw [h.scopeEquipment, h.packages]

lemma laborInner_mono (h : ConfigLE c₁ c₂) (v : Vessel) :
    laborInner c₁ v ≤ laborInner c₂ v := by
  unfold laborInner
  have t1 : clampN c₁.epsWpLaborPerSf * finishSf v
      ≤ clampN c₂.epsWpLaborPerSf * finishSf v :=
    mul_le_mul_of_nonneg_right (clampN_mono h.epsWpLaborPerSf) (finishSf_nonneg v)
  have t2 : clampN c₁.tileLaborPerSf * (floorSf v + wallSf v)
      ≤ clampN c₂.tileLaborPerSf * (floorSf v + wallSf v) :=
    mul_le_mul_of_nonneg_right (clampN_mono h.tileLaborPerSf)
      (add_nonneg (floorSf_nonneg v) (wallSf_nonneg v))
  have t3 : clampN c₁.ffeLaborPerVessel ≤ clampN c₂.ffeLaborPerVessel :=
    clampN_mono h.ffeLaborPerVessel
  have t4 : (if v.type = VesselType.hotTub then clampN c₁.equipPlumbPerVessel * (3 / 2)
        else clampN c₁.equipPlumbPerVessel)
      ≤ (if v.type = VesselType.hotTub then clampN c₂.equipPlumbPerVessel * (3 / 2)
        else clampN c₂.equipPlumbPerVessel) := by
    split_ifs
    · exact mul_le_mul_of_nonneg_right (clampN_mono h.equipPlumbPerVessel) (by norm_num)
    · exact clampN_mono h.equipPlumbPerVessel
  have t5 : clampN c₁.handrailInstallPerEa * clampN v.handrails
      ≤ clampN c₂.handrailInstallPerEa * clampN v.handrails :=
    mul_le_mul_of_nonneg_right (clampN_mono h.handrailInstallPerEa) (clampN_nonneg _)
  have t6 : (if v.type = VesselType.coldPlunge ∧ v.refrigerationLine
        then clampN c₁.refrigLinePerCP else 0)
      ≤ (if v.type = VesselType.coldPlunge ∧ v.refrigerationLine
        then clampN c₂.refrigLinePerCP else 0) := by
    split_ifs
    · exact clampN_mono h.refrigLinePerCP
    · exact le_refl 0
  linarith

lemma laborSubtotal_mono (h : ConfigLE c₁ c₂) (v : Vessel) :
    laborSubtotal c₁ v ≤ laborSubtotal c₂ v := by
  unfold laborSubtotal
  rw [h.scopeLabor]
  split_ifs
  · exact mul_le_mul (laborInner_mono h v) (clampN_mono h.regionMult)
      (clampN_nonneg _) (laborInner_nonneg c₂ v)
  · exact le_refl 0

lemma perVesselDirect_mono (h : ConfigLE c₁ c₂) (v : Vessel) :
    perVesselDirect c₁ v ≤ perVesselDirect c₂ v := by
  unfold perVesselDirect materialsSubtotal
  have := materialsEpsBundle_mono h v
  have := materialsTile_mono h v
  have := materialsFfe_mono h v
  have := equipmentSubtotal_eq_of_le h v
  have := laborSubtotal_mono h v
  linarith

lemma sumDirect_mono (h : ConfigLE c₁ c₂) (vs : List Vessel) :
    sumDirect c₁ vs ≤ sumDirect c₂ vs :=
  sumBy_mono (fun v _ => perVesselDirect_mono h v)

lemma freightTotal_mono (h : ConfigLE c₁ c₂) (vs : List Vessel) :
    freightTotal c₁ vs ≤ freightTotal c₂ vs := by
  unfold freightTotal
  rw [h.scopeFreight]
  split_ifs
  · refine mul_le_mul ?_ (clampN_mono h.regionMult) (clampN_nonneg _) ?_
    · exact add_le_add
        (mul_le_mul (clampN_mono h.miles) (clampN_mono h.dollarsPerMile)
          (clampN_nonneg _) (clampN_nonneg _))
        (mul_le_mul_of_nonneg_left (clampN_mono h.handlingPerVessel) (Nat.cast_nonneg _))
    · exact add_nonneg (mul_nonneg (clampN_nonneg _) (clampN_nonneg _))
        (mul_nonneg (Nat.cast_nonneg _) (clampN_nonneg _))
  · exact le_refl 0

lemma designEngineering_mono (h : ConfigLE c₁ c₂) :
    designEngineering c₁ ≤ designEngineering c₂ := by
  unfold designEngineering
  rw [h.scopeDesignEng]
  split_ifs
  · exact mul_le_mul (clampN_mono h.designBase) (clampN_mono h.designMult)
      (clampN_nonneg _) (clampN_nonneg _)
  · exact le_refl 0

lemma repFee_mono (h : ConfigLE c₁ c₂) : repFee c₁ ≤ repFee c₂ := by
  unfold repFee
  rw [h.scopeLabor]
  split_ifs
  · exact clampN_mono h.repOnsiteFee
  · exact le_refl 0

lemma startupCost_mono (h : ConfigLE c₁ c₂) : startupCost c₁ ≤ startupCost c₂ := by
  unfold startupCost
  rw [h.scopeLabor]
  split_ifs
  · exact clampN_mono h.startupLump
  · exact le_refl 0

lemma chemStorage_mono (h : ConfigLE c₁ c₂) : chemStorage c₁ ≤ chemStorage c₂ := by
  unfold chemStorage
  rw [h.scopeEquipment, h.useProjectChemicalStorage]
  split_ifs
  · exact clampN_mono h.projectChemicalStorageCost
  · exact le_refl 0

lemma rigging_mono (h : ConfigLE c₁ c₂) (vs : List Vessel) :
    rigging c₁ vs ≤ rigging c₂ vs := by
  unfold rigging
  rw [h.scopeLabor, h.includeRigging]
  split_ifs
  · exact mul_le_mul_of_nonneg_right (clampN_mono h.riggingPerVessel) (Nat.cast_nonneg _)
  · exact le_refl 0

lemma pooledCosts_mono (h : ConfigLE c₁ c₂) (vs : List Vessel) :
    pooledCosts c₁ vs ≤ pooledCosts c₂ vs := by
  unfold pooledCosts
  have := freightTotal_mono h vs
  have := designEngineering_mono h
  have := repFee_mono h
  have := startupCost_mono h
  have := chemStorage_mono h
  have := rigging_mono h vs
  linarith

lemma contRate_mono (h : ConfigLE c₁ c₂) : contRate c₁ ≤ contRate c₂ := by
  unfold contRate
  rw [h.scopeDesignCont]
  split_ifs
  · exact div_le_div_of_nonneg_right (clampN_mono h.designContPct) (by norm_num)
  · exact le_refl 0

lemma wasteRate_mono (h : ConfigLE c₁ c₂) : wasteRate c₁ ≤ wasteRate c₂ :=
  div_le_div_of_nonneg_right (clampN_mono h.wastePct) (by norm_num)

lemma ohpRate_mono (h : ConfigLE c₁ c₂) : ohpRate c₁ ≤ ohpRate c₂ :=
  div_le_div_of_nonneg_right (clampN_mono h.ohpPct) (by norm_num)

lemma wRate_mono (h : ConfigLE c₁ c₂) : wRate c₁ ≤ wRate c₂ := by
  unfold wRate
  rw [h.scopeWarranty]
  split_ifs
  · exact div_le_div_of_nonneg_right (clampN_mono h.warrantyPctOfClient) (by norm_num)
  · exact le_refl 0

lemma allocBase_nonneg (cfg : Config) (vs : List Vessel) :
    0 ≤ (if sumDirect cfg vs = 0 then 0 else sumDirect cfg vs + pooledCosts cfg vs) := by
  split_ifs
  · exact le_refl 0
  · exact add_nonneg (sumDirect_nonneg cfg vs) (pooledCosts_nonneg cfg vs)

lemma allocBase_mono (h : ConfigLE c₁ c₂) (vs : List Vessel) :
    (if sumDirect c₁ vs = 0 then 0 else sumDirect c₁ vs + pooledCosts c₁ vs)
      ≤ (if sumDirect c₂ vs = 0 then 0 else sumDirect c₂ vs + pooledCosts c₂ vs) := by
  by_cases h1 : sumDirect c₁ vs = 0 <;> by_cases h2 : sumDirect c₂ vs = 0
  · rw [if_pos h1, if_pos h2]
  · rw [if_pos h1, if_neg h2]
    exact add_nonneg (sumDirect_nonneg c₂ vs) (pooledCosts_nonneg c₂ vs)
  · exact absurd (le_antisymm (h2 ▸ sumDirect_mono h vs) (sumDirect_nonneg c₁ vs)) h1
  · rw [if_neg h1, if_neg h2]
    exact add_le_add (sumDirect_mono h vs) (pooledCosts_mono h vs)

lemma clientPrice_mono (h : ConfigLE c₁ c₂) (vs : List Vessel) :
    JsVal.le (clientPrice c₁ vs) (clientPrice c₂ vs) := by
  rw [clientPrice_closed c₁ vs, clientPrice_closed c₂ vs]
  by_cases h2 : wRate c₂ < 1
  · have h1 : wRate c₁ < 1 := lt_of_le_of_lt (wRate_mono h) h2
    rw [if_pos h1, if_pos h2, JsVal.le_num_num]
    have hA := allocBase_mono h vs
    have hA2 := allocBase_nonneg c₂ vs
    have hc1 := contRate_nonneg c₁
    have hc2 := contRate_nonneg c₂
    have hw1 := wasteRate_nonneg c₁
    have ho1 := ohpRate_nonneg c₁
    have hcm := contRate_mono h
    have hwm := wasteRate_mono h
    have hom := ohpRate_mono h
    have hwrm := wRate_mono h
    have hwr1 := wRate_nonneg c₁
    refine div_le_div₀ ?_ ?_ (by linarith) (by linarith)
    · refine mul_nonneg (mul_nonneg hA2 (by linarith)) (by linarith)
    · refine mul_le_mul (mul_le_mul hA (by linarith) (by linarith) hA2)
        (by linarith) (by linarith) (mul_nonneg hA2 (by linarith))
  · rw [if_neg h2]
    by_cases hvs : vs = []
    · rw [if_pos hvs]
      subst hvs
      split_ifs with h1 hS
      · rw [JsVal.le_num_num]
        simp
      · exact absurd rfl hS
      · exact JsVal.le_num_num.mpr (le_refl 0)
    · rw [if_neg hvs]
      split_ifs with h1
      all_goals first
        | exact JsVal.le_num_inf _
        | exact JsVal.le_inf_inf

end Monotonicity

/-- A v2 vessel with both the bench and the steps features disabled,
used as a concrete instance of the geometry claim. -/
def vV2Demo : VesselV2 :=
  { length_ft := 10, width_ft := 3, waterDepth_ft := 7 / 2,
    hasBench := false, benchLength_ft := 4, benchDepth_ft := 3 / 2, benchHeight_ft := 3 / 2,
    hasSteps := false, stepsWidth_ft := 2, stepsCount := 3, stepRiser_ft := 1 / 2,
    stepTread_ft := 1 }

/-- The same v2 vessel with both the bench and the steps features
enabled. -/
def vV2DemoOn : VesselV2 := { vV2Demo with hasBench := true, hasSteps := true }

/-!
The claims.
-/

/-- C1: for every vessel, the engine's client total equals
`preWarranty / (1 − warrantyPct)` when the Warranty scope is enabled and
`warrantyPct < 1` (the configured percentage, clamped, divided by 100),
and equals `preWarranty` when the scope is disabled. -/
theorem claim_warranty_reverse_solved (cfg : Config) (vs : List Vessel) :
    (cfg.scopeWarranty = true → wRate cfg < 1 →
      perVesselClient cfg vs
        = vs.map (fun v => JsVal.num (preWarranty1 cfg vs v / (1 - wRate cfg))))
    ∧ (cfg.scopeWarranty = false →
      perVesselClient cfg vs = vs.map (fun v => JsVal.num (preWarranty1 cfg vs v))) := by
  constructor
  · intro _ hw
    unfold perVesselClient client1
    exact List.map_congr_left (fun v _ => if_pos hw)
  · intro hs
    have hw0 : wRate cfg = 0 := by simp [wRate, hs]
    unfold perVesselClient client1
    refine List.map_congr_left (fun v _ => ?_)
    rw [hw0]
    norm_num

theorem claim_warranty_reverse_solved_witness :
    cfgDemo.scopeWarranty = true ∧ wRate cfgDemo < 1
    ∧ perVesselClient cfgDemo vsDemo
      = vsDemo.map (fun v => JsVal.num (preWarranty1 cfgDemo vsDemo v / (1 - wRate cfgDemo))) :=
  ⟨rfl, by norm_num [wRate, cfgDemo, clampN],
    (claim_warranty_reverse_solved cfgDemo vsDemo).1 rfl
      (by norm_num [wRate, cfgDemo, clampN])⟩

/-- C2: with the warranty percentage configured to 100 and the Warranty
scope enabled, the engine does NOT surface a configuration error: it
computes `wRate = 1` and returns JavaScript `Infinity` as every
per-vessel client total and as the project client price.  The spec
requires a distinct error here, so this records the code's divergent
behavior at the failing input. -/
theorem claim_warranty_degeneracy_behavior :
    wRate cfgDegenerate = 1
    ∧ perVesselClient cfgDegenerate vsDemo = [JsVal.inf]
    ∧ clientPrice cfgDegenerate vsDemo = JsVal.inf := by
  refine ⟨?_, ?_, ?_⟩ <;>
    norm_num [wRate, cfgDegenerate, cfgDemo, clampN, perVesselClient, client1,
      clientPrice, jsSum, vsDemo, JsVal.add]

/-- C3 (counterexample to the claim as stated): on the empty vessel
list with the default rates, the sum of pre-contingency bases is 0 while
the pooled project costs are 37950, so the conservation identity fails
for this vessel list and rate configuration. -/
theorem claim_allocation_conservation_counterexample :
    ¬ (baseBeforeCont cfgDefault [] = sumDirect cfgDefault []
        + (freightTotal cfgDefault [] + designEngineering cfgDefault + repFee cfgDefault
          + startupCost cfgDefault + chemStorage cfgDefault + rigging cfgDefault [])) := by
  norm_num [baseBeforeCont, perVesselPreContBase, sumBy, sumDirect, freightTotal,
    designEngineering, repFee, startupCost, chemStorage, rigging, clampN, cfgDefault]

/-- C3 (amended): whenever the sum of direct costs is nonzero — so the
`|| 1` guard on the allocation denominator is not triggered — the sum of
the per-vessel pre-contingency bases equals the sum of direct costs plus
all pooled project costs, exactly in exact arithmetic. -/
theorem claim_allocation_conservation (cfg : Config) (vs : List Vessel)
    (h : sumDirect cfg vs ≠ 0) :
    baseBeforeCont cfg vs = sumDirect cfg vs
      + (freightTotal cfg vs + designEngineering cfg + repFee cfg + startupCost cfg
        + chemStorage cfg + rigging cfg vs) := by
  have hc := baseBeforeCont_cases cfg vs
  rw [if_neg h] at hc
  simpa [pooledCosts] using hc

theorem claim_allocation_conservation_witness :
    sumDirect cfgDemo vsDemo ≠ 0
    ∧ baseBeforeCont cfgDemo vsDemo = sumDirect cfgDemo vsDemo
      + (freightTotal cfgDemo vsDemo + designEngineering cfgDemo + repFee cfgDemo
        + startupCost cfgDemo + chemStorage cfgDemo + rigging cfgDemo vsDemo) :=
  ⟨by norm_num [sumDirect, sumBy, perVesselDirect, materialsSubtotal, materialsEpsBundle,
      materialsTile, materialsFfe, equipmentSubtotal, pkgFor, laborSubtotal, laborInner,
      finishSf, floorSf, wallSf, clampN, cfgDemo, vsDemo, vDemo, pkgDemo, List.find?,
      List.contains],
    claim_allocation_conservation cfgDemo vsDemo
      (by norm_num [sumDirect, sumBy, perVesselDirect, materialsSubtotal, materialsEpsBundle,
        materialsTile, materialsFfe, equipmentSubtotal, pkgFor, laborSubtotal, laborInner,
        finishSf, floorSf, wallSf, clampN, cfgDemo, vsDemo, vDemo, pkgDemo, List.find?,
        List.contains])⟩

/-- C4: for any vessel list, the sum of the per-vessel contingency
amounts (redistributed with freshly computed shares of the
pre-contingency bases) equals the total contingency amount
`(Σ preContBase_i) × contingencyPct`, exactly. -/
theorem claim_contingency_conservation (cfg : Config) (vs : List Vessel) :
    sumBy id (perVesselCont cfg vs) = designContAmount cfg vs
    ∧ designContAmount cfg vs = baseBeforeCont cfg vs * contRate cfg := by
  constructor
  · unfold perVesselCont
    rw [sumBy_id_map]
    exact sum_cont_eq cfg vs
  · rfl

/-- C5: for every vessel, when the Warranty scope is enabled and the
warranty rate is below 1, the client total is a finite number `q` and
the per-vessel warranty amount is exactly `q × warrantyPct`. -/
theorem claim_warranty_identity (cfg : Config) (vs : List Vessel)
    (hs : cfg.scopeWarranty = true) (hw : wRate cfg < 1) :
    ∀ v ∈ vs, ∃ q : ℚ, client1 cfg vs v = JsVal.num q
      ∧ warranty1 cfg vs v = JsVal.num (q * wRate cfg) := by
  intro v _
  refine ⟨preWarranty1 cfg vs v / (1 - wRate cfg), ?_, ?_⟩
  · unfold client1
    rw [if_pos hw]
  · simp only [warranty1, client1, if_pos hw, hs, if_true]
    rfl

theorem claim_warranty_identity_witness :
    cfgDemo.scopeWarranty = true ∧ wRate cfgDemo < 1
    ∧ ∃ q : ℚ, client1 cfgDemo vsDemo vDemo = JsVal.num q
      ∧ warranty1 cfgDemo vsDemo vDemo = JsVal.num (q * wRate cfgDemo) :=
  ⟨rfl, by norm_num [wRate, cfgDemo, clampN],
    claim_warranty_identity cfgDemo vsDemo rfl (by norm_num [wRate, cfgDemo, clampN])
      vDemo (by simp [vsDemo])⟩

/-- C6: disabling any single scope flag drives the corresponding cost
bucket to exactly 0 across all vessels (for any configuration and vessel
list), and only that bucket: for every other flag there is a
configuration — all scopes on but the disabled one, every rate
positive — in which the other flag's bucket is nonzero.  Every flag
combination is a valid input. -/
theorem claim_scope_zeroing :
    (∀ (cfg : Config) (vs : List Vessel) (f : ScopeFlag),
      bucketZero f (setFlag f false cfg) vs)
    ∧ (∀ f g : ScopeFlag, f ≠ g → ¬ bucketZero g (setFlag f false cfgDemo) vsDemo) :=
  ⟨bucketZero_of_disabled, bucketNonzero_of_other⟩

theorem claim_scope_zeroing_witness :
    bucketZero ScopeFlag.materials (setFlag ScopeFlag.materials false cfgDemo) vsDemo
    ∧ ¬ bucketZero ScopeFlag.labor (setFlag ScopeFlag.materials false cfgDemo) vsDemo :=
  ⟨claim_scope_zeroing.1 cfgDemo vsDemo ScopeFlag.materials,
    claim_scope_zeroing.2 ScopeFlag.materials ScopeFlag.labor (by decide)⟩

/-- C7: increasing any single rate field of the configuration while
holding every other input fixed never decreases the project client
price (in the order on JavaScript numbers in which every finite value
is below `Infinity`). -/
theorem claim_rate_monotonicity (cfg : Config) (vs : List Vessel) (f : RateField)
    (x y : ℚ) (hxy : x ≤ y) :
    JsVal.le (clientPrice (setRate f x cfg) vs) (clientPrice (setRate f y cfg) vs) :=
  clientPrice_mono (configLE_setRate f hxy cfg) vs

theorem claim_rate_monotonicity_witness :
    (1 : ℚ) ≤ 2
    ∧ JsVal.le (clientPrice (setRate RateField.epsBundlePerSf 1 cfgDemo) vsDemo)
        (clientPrice (setRate RateField.epsBundlePerSf 2 cfgDemo) vsDemo) :=
  ⟨by norm_num,
    claim_rate_monotonicity cfgDemo vsDemo RateField.epsBundlePerSf 1 2 (by norm_num)⟩

/-- C8: on the empty vessel list the engine is a total function whose
allocation denominator is guarded to 1 and whose rollup totals are all
exactly 0. -/
theorem claim_empty_vessel_list (cfg : Config) :
    sumPreAllocBase cfg [] = 1
    ∧ finishSfTotal [] = 0
    ∧ materialsTotal cfg [] = 0
    ∧ equipmentSubtotalVessels cfg [] = 0
    ∧ laborSubtotalProject cfg [] = 0
    ∧ baseBeforeCont cfg [] = 0
    ∧ designContAmount cfg [] = 0
    ∧ hardCostsBase cfg [] = 0
    ∧ wasteAmount cfg [] = 0
    ∧ ohpAmount cfg [] = 0
    ∧ profit cfg [] = 0
    ∧ clientPrice cfg [] = JsVal.num 0
    ∧ warrantyReserve cfg [] = JsVal.num 0
    ∧ grossMarginPct cfg [] = JsVal.num 0
    ∧ effectivePerSf cfg [] = JsVal.num 0 := by
  refine ⟨?_, rfl, rfl, rfl, rfl, rfl, ?_, rfl, rfl, rfl, rfl, rfl, rfl, ?_, ?_⟩
  · simp [sumPreAllocBase, sumDirect, sumBy]
  · simp [designContAmount, baseBeforeCont, perVesselPreContBase, sumBy]
  · norm_num [grossMarginPct, clientPrice, perVesselClient, jsSum, JsVal.gtZero]
  · norm_num [effectivePerSf, finishSfTotal, sumBy]

/-- C9: in the calculator variant carrying bench and step features, the
floor area is length times width, the wall area is
`2 × (length + width) × depth`, the bench and step areas are computed
from their own sub-dimensions when the corresponding feature is enabled
and are 0 otherwise, and the finish area is the sum of the four, with
no error conditions. -/
theorem claim_geometry_v2 (v : VesselV2) :
    floorSfV2 v = clampN v.length_ft * clampN v.width_ft
    ∧ wallSfV2 v = 2 * (clampN v.length_ft + clampN v.width_ft) * clampN v.waterDepth_ft
    ∧ (v.hasBench = true → benchPartV2 v
        = clampN v.benchLength_ft * clampN v.benchDepth_ft
          + clampN v.benchLength_ft * clampN v.benchHeight_ft
          + 2 * (clampN v.benchDepth_ft * clampN v.benchHeight_ft))
    ∧ (v.hasSteps = true → stepsPartV2 v
        = clampN v.stepsWidth_ft * clampN v.stepTread_ft
            * ((max 1 (jsRound (clampN v.stepsCount)) : ℤ) : ℚ)
          + clampN v.stepsWidth_ft * clampN v.stepRiser_ft
            * ((max 1 (jsRound (clampN v.stepsCount)) : ℤ) : ℚ)
          + 2 * ((((max 1 (jsRound (clampN v.stepsCount)) : ℤ) : ℚ)
              * clampN v.stepRiser_ft / 2)
            * ((((max 1 (jsRound (clampN v.stepsCount)) : ℤ) : ℚ)) * clampN v.stepTread_ft)))
    ∧ (v.hasBench = false → benchPartV2 v = 0)
    ∧ (v.hasSteps = false → stepsPartV2 v = 0)
    ∧ finishSfV2 v = floorSfV2 v + wallSfV2 v + benchPartV2 v + stepsPartV2 v := by
  refine ⟨rfl, rfl, ?_, ?_, ?_, ?_, ?_⟩
  · intro h
    simp [benchPartV2, h]
  · intro h
    simp [stepsPartV2, h]
  · intro h
    simp [benchPartV2, h]
  · intro h
    simp [stepsPartV2, h]
  · unfold finishSfV2 benchSfV2
    ring

theorem claim_geometry_v2_witness :
    vV2DemoOn.hasBench = true ∧ vV2DemoOn.hasSteps = true
    ∧ benchPartV2 vV2DemoOn
      = clampN vV2DemoOn.benchLength_ft * clampN vV2DemoOn.benchDepth_ft
        + clampN vV2DemoOn.benchLength_ft * clampN vV2DemoOn.benchHeight_ft
        + 2 * (clampN vV2DemoOn.benchDepth_ft * clampN vV2DemoOn.benchHeight_ft)
    ∧ stepsPartV2 vV2DemoOn
      = clampN vV2DemoOn.stepsWidth_ft * clampN vV2DemoOn.stepTread_ft
          * ((max 1 (jsRound (clampN vV2DemoOn.stepsCount)) : ℤ) : ℚ)
        + clampN vV2DemoOn.stepsWidth_ft * clampN vV2DemoOn.stepRiser_ft
          * ((max 1 (jsRound (clampN vV2DemoOn.stepsCount)) : ℤ) : ℚ)
        + 2 * ((((max 1 (jsRound (clampN vV2DemoOn.stepsCount)) : ℤ) : ℚ)
            * clampN vV2DemoOn.stepRiser_ft / 2)
          * ((((max 1 (jsRound (clampN vV2DemoOn.stepsCount)) : ℤ) : ℚ))
            * clampN vV2DemoOn.stepTread_ft))
    ∧ vV2Demo.hasBench = false ∧ vV2Demo.hasSteps = false
    ∧ benchPartV2 vV2Demo = 0 ∧ stepsPartV2 vV2Demo = 0
    ∧ finishSfV2 vV2DemoOn
      = floorSfV2 vV2DemoOn + wallSfV2 vV2DemoOn + benchPartV2 vV2DemoOn
        + stepsPartV2 vV2DemoOn :=
  ⟨rfl, rfl,
    (claim_geometry_v2 vV2DemoOn).2.2.1 rfl,
    (claim_geometry_v2 vV2DemoOn).2.2.2.1 rfl,
    rfl, rfl,
    (claim_geometry_v2 vV2Demo).2.2.2.2.1 rfl,
    (claim_geometry_v2 vV2Demo).2.2.2.2.2.1 rfl,
    (claim_geometry_v2 vV2DemoOn).2.2.2.2.2.2⟩

/-- C10: when the sum of all vessels' direct costs is 0 (for example
with the Materials, Labor and Equipment scopes all disabled), the `|| 1`
guard makes every allocation share 0, every pre-contingency base 0 and
every pre-warranty total 0, so the pooled project costs are silently
dropped from every per-vessel total and (when the warranty rate is
below 1) from the client price, which is 0. -/
theorem claim_zero_direct_drops_pooled (cfg : Config) (vs : List Vessel)
    (h : sumDirect cfg vs = 0) :
    (∀ v ∈ vs, allocShare cfg vs v = 0)
    ∧ (∀ v ∈ vs, preContBase1 cfg vs v = 0)
    ∧ (∀ v ∈ vs, preWarranty1 cfg vs v = 0)
    ∧ (wRate cfg < 1 → clientPrice cfg vs = JsVal.num 0) := by
  have hd : ∀ v ∈ vs, perVesselDirect cfg v = 0 :=
    sumBy_eq_zero (fun v _ => perVesselDirect_nonneg cfg v) h
  have hshare : ∀ v ∈ vs, allocShare cfg vs v = 0 := by
    intro v hv
    unfold allocShare
    rw [hd v hv, zero_div]
  have hpre : ∀ v ∈ vs, preContBase1 cfg vs v = 0 := by
    intro v hv
    unfold preContBase1
    rw [hd v hv, hshare v hv]
    ring
  have hbpc : ∀ v ∈ vs, basePlusCont1 cfg vs v = 0 := by
    intro v hv
    unfold basePlusCont1 cont1
    rw [hpre v hv]
    ring
  have hpw : ∀ v ∈ vs, preWarranty1 cfg vs v = 0 := by
    intro v hv
    unfold preWarranty1 waste1 ohp1
    rw [hbpc v hv]
    ring
  refine ⟨hshare, hpre, hpw, ?_⟩
  intro hw
  rw [clientPrice_eq, if_pos hw, sumBy_of_all_zero hpw]
  norm_num

theorem claim_zero_direct_drops_pooled_witness :
    sumDirect cfgNoDirect vsDemo = 0
    ∧ pooledCosts cfgNoDirect vsDemo ≠ 0
    ∧ (∀ v ∈ vsDemo, preContBase1 cfgNoDirect vsDemo v = 0)
    ∧ clientPrice cfgNoDirect vsDemo = JsVal.num 0 := by
  have h0 : sumDirect cfgNoDirect vsDemo = 0 := by
    norm_num [sumDirect, sumBy, perVesselDirect, materialsSubtotal, materialsEpsBundle,
      materialsTile, materialsFfe, equipmentSubtotal, laborSubtotal, cfgNoDirect, cfgDemo,
      vsDemo]
  refine ⟨h0, ?_, (claim_zero_direct_drops_pooled cfgNoDirect vsDemo h0).2.1, ?_⟩
  · norm_num [pooledCosts, freightTotal, designEngineering, repFee, startupCost,
      chemStorage, rigging, clampN, cfgNoDirect, cfgDemo, vsDemo]
  · exact (claim_zero_direct_drops_pooled cfgNoDirect vsDemo h0).2.2.2
      (by norm_num [wRate, cfgNoDirect, cfgDemo, clampN])

end PoolCalc
